import Mathlib

/-!
Verification development for the AmiraMesh (.am) reader
(src/skxray/io/avizo_io.py of strawlab/scikit-xray).

The Python source is shallowly embedded below.  Modelling conventions:

* Python 2 byte strings are modelled as `List Char` where every character
  stands for one byte (code point < 256 in all realistic inputs); header
  lines and tokens are Lean `String`s.
* Python exceptions are modelled by `Except PyErr`; each constructor of
  `PyErr` names the Python exception class raised by the source at the
  corresponding place.
* Python floats are modelled by exact rationals.  All numbers appearing
  in the source and in the claims (0.99, 1.01, bounding-box coordinates)
  are used at values where binary floating point and exact rational
  arithmetic agree on every comparison performed by the source.
* numpy specifics that the source relies on are modelled at the behaviour
  level: `ndarray.resize` truncates or zero-pads (it performs no shape
  check), dtype string 'b' is a signed 8-bit integer, `np.uint8` is an
  unsigned 8-bit integer, and the index `[::-1, ..., ...]` reverses the
  outermost (z) axis only (2013-era numpy accepted repeated ellipses).
  Reinterpretation of raw bytes as multi-byte numeric types ('f4', 'h4',
  'H4') is outside the model and is mapped to the explicit error value
  `PyErr.unmodeledDtype`; no theorem below depends on that branch.
-/

/-! ## Error model -/

/-- Python exception classes raised by the source, plus two modelling
markers: `nonTermination` stands for the source looping forever (no
exception is raised there), and `unmodeledDtype` marks the multi-byte
numeric reinterpretation branch that the rational-number model does not
cover. -/
inductive PyErr where
  | indexError
  | valueError
  | keyError
  | zeroDivisionError
  | assertionError
  | notImplementedError
  | nonTermination
  | unmodeledDtype
deriving DecidableEq

/-- Errors of `decode_rle`: `corruptStream` is the explicit
ValueError raised on a zero control byte, `truncatedStream` is the
IndexError raised when the input array is indexed past its end, and
`broadcastMismatch` is the ValueError numpy raises when a run would be
written past the end of the preallocated output array. -/
inductive RleErr where
  | corruptStream
  | truncatedStream
  | broadcastMismatch
deriving DecidableEq

/-- How `RleErr` surfaces as a Python exception in the caller. -/
def pyOfRle : RleErr → PyErr
  | .corruptStream => .valueError
  | .truncatedStream => .indexError
  | .broadcastMismatch => .valueError

deriving instance DecidableEq for Except

/-- Option-to-Except helper: model of reading a value that raises the
given exception when the value is missing. -/
def require (o : Option α) (e : PyErr) : Except PyErr α :=
  match o with
  | some a => .ok a
  | none => .error e

/-! ## RLE codec (decode_rle, source lines 16-37)

The source keeps the whole input `d` and a cursor `filepos`; the loop
runs while fewer than `uncompressed_size` bytes have been produced.  The
accumulator below plays the role of the already-written prefix of the
preallocated `rval` array, so the number of bytes written is the length
of the accumulator. -/

/-- One-loop-at-a-time model of the decode loop of `decode_rle`.
Returns the produced bytes together with the final cursor position.  The
write `rval[bytes_read:bytes_read+len(mybytes)] = mybytes` succeeds
exactly when it fits (a too-long run cannot broadcast because its length
is at least 2 while the remaining room differs from it). -/
def rleGo (d : List Nat) (n : Nat) (filepos : Nat) (acc : List Nat) :
    Except RleErr (List Nat × Nat) :=
  if acc.length < n then
    if h : filepos < d.length then
      let x := d.get ⟨filepos, h⟩
      if x = 0 then .error .corruptStream
      else if 127 < x then
        let x' := x &&& 127
        let chunk := (d.drop (filepos + 1)).take x'
        if acc.length + chunk.length ≤ n then
          rleGo d n (filepos + 1 + x') (acc ++ chunk)
        else .error .broadcastMismatch
      else
        if h2 : filepos + 1 < d.length then
          let chunk := List.replicate x (d.get ⟨filepos + 1, h2⟩)
          if acc.length + chunk.length ≤ n then
            rleGo d n (filepos + 2) (acc ++ chunk)
          else .error .broadcastMismatch
        else .error .truncatedStream
    else .error .truncatedStream
  else .ok (acc, filepos)
termination_by d.length - filepos
decreasing_by
  · omega
  · omega

/-- `decode_rle` with the final cursor position exposed. -/
def decode_rle_fp (d : List Nat) (uncompressed_size : Nat) :
    Except RleErr (List Nat × Nat) :=
  rleGo d uncompressed_size 0 []

/-- Model of `decode_rle(d, uncompressed_size)` (source lines 16-37). -/
def decode_rle (d : List Nat) (uncompressed_size : Nat) :
    Except RleErr (List Nat) :=
  (decode_rle_fp d uncompressed_size).map Prod.fst

/-! ## Keyword and format string constants of the source -/

/-- The sentinel line separating header and payload. -/
def amSentinel : String := "# Data section follows\n"

def kwDefine : String := "define"

def kwContent : String := "Content"

def kwCoordType : String := "CoordType"

def kwBoundingBox : String := "BoundingBox"

def kwUnits : String := "Units"

def kwCoordinates : String := "Coordinates"

def kwLattice : String := "Lattice"

def kwLabels : String := "Labels"

def tokOpenBrace : String := "\x7b"

def tokCloseBrace : String := "\x7d"

def tokAt1 : String := "@1"

def fmt3D : String := "3D"

def fmtLE : String := "BINARY-LITTLE-ENDIAN"

def fmtBE : String := "BINARY"

def fmtAscii : String := "ASCII"

def encRaw : String := "raw"

def dtFloat : String := "float"

def dtShort : String := "short"

def dtUshort : String := "ushort"

def dtByte : String := "byte"

def dsF4 : String := "f4"

def dsH4 : String := "h4"

def dsH4U : String := "H4"

def dsB : String := "b"

def pxUnits : String := "pixels"

/-- Literal prefix of the RLE encoding descriptor regex. -/
def rleDescrHead : List Char := "@1(HxByteRLE".toList

def nlChar : Char := '\n'

def spChar : Char := ' '

/-! ## Header reader (_read_amira, source lines 39-79)

The source calls `readline()` in a loop; `readline` returns one line
including its trailing newline, or the final newline-less tail, or the
empty string at end of file.  `linesAux` performs exactly this
decomposition: the produced lists concatenate back to the input and each
one is a maximal newline-terminated segment (only the last may lack the
newline).  At end of file the source keeps looping (readline keeps
returning the empty string, which never equals the sentinel), so the
reader never returns; this is modelled by `none`. -/

/-- Split a byte stream into Python readline-lines. -/
def linesAux : List Char → List Char → List (List Char)
  | [], cur => if cur = [] then [] else [cur.reverse]
  | c :: rest, cur =>
    if c = nlChar then (c :: cur).reverse :: linesAux rest []
    else linesAux rest (c :: cur)

/-- All readline-lines of a stream, as strings. -/
def pyLines (s : List Char) : List String :=
  (linesAux s []).map (fun l => String.mk l)

/-- The readline loop of `_read_amira` over the line decomposition:
append every line to the header until one equals the sentinel, then
consume one further line and return the rest of the stream as payload.
`none` models the non-terminating end-of-file case. -/
def readAmiraLines : List (List Char) → Option (List String × List Char)
  | [] => none
  | l :: rest =>
    if String.mk l = amSentinel then
      some ([String.mk l], (rest.drop 1).flatten)
    else
      match readAmiraLines rest with
      | none => none
      | some (hdr, payload) => some (String.mk l :: hdr, payload)

/-- Model of `_read_amira` on the contents of the source file.  Returns
the raw header lines and the raw payload bytes, or `none` when the
source's loop never terminates (sentinel missing). -/
def read_amira (s : List Char) : Option (List String × List Char) :=
  readAmiraLines (linesAux s [])

/-! ## Header tokenizer (_clean_amira_header, source lines 187-213)

For each raw header line the source evaluates
`filter(None, [word.translate(None, ',\x22') for word in row.strip('\n').split()])`:
strip newlines from both ends, split on whitespace runs (Python
`str.split()` drops empty tokens), delete every comma and double quote
inside each token, and drop tokens that became empty. -/

/-- Python `str.strip(c)` for a single character: remove every leading
and trailing occurrence of `c`. -/
def pyStrip (c : Char) (s : List Char) : List Char :=
  ((s.dropWhile (fun a => a = c)).reverse.dropWhile (fun a => a = c)).reverse

/-- Python `str.translate(None, bad)`: delete every character in `bad`. -/
def pyTranslateDel (bad : List Char) (s : List Char) : List Char :=
  s.filter (fun a => ¬ bad.contains a)

/-- Python `str.split()` with no argument: split on runs of whitespace,
dropping empty tokens.  (Lean's `Char.isWhitespace` covers the space,
tab, carriage-return and newline characters that can occur here.) -/
def pySplitWsAux : List Char → List Char → List (List Char)
  | [], cur => if cur = [] then [] else [cur.reverse]
  | c :: rest, cur =>
    if c.isWhitespace then
      if cur = [] then pySplitWsAux rest []
      else cur.reverse :: pySplitWsAux rest []
    else pySplitWsAux rest (c :: cur)

def pySplitWs (s : List Char) : List (List Char) :=
  pySplitWsAux s []

/-- Tokenize one raw header line. -/
def cleanLine (row : String) : List String :=
  (((pySplitWs (pyStrip nlChar row.data)).map
      (fun w => pyTranslateDel [',', '"'] w)).filter
    (fun w => ¬ w = [])).map (fun w => String.mk w)

/-- Model of `_clean_amira_header`. -/
def clean_amira_header (header : List String) : List (List String) :=
  header.map cleanLine

/-! ## Number parsing

`int(...)` and `float(...)` on header tokens.  The model covers plain
decimal literals (optional sign, digits, optional fraction part), the
only forms the AmiraMesh headers handled by the source contain; exotic
forms Python would also accept (exponents, inf/nan, embedded
underscores) parse to an error here, which only makes the model's
error set conservatively larger.  No claim depends on such tokens. -/

def digitsNum (cs : List Char) : Nat :=
  cs.foldl (fun a c => 10 * a + (c.toNat - 48)) 0

/-- Decimal digit string to a natural number; `none` if empty or not
all digits. -/
def digitsVal (cs : List Char) : Option Nat :=
  if cs = [] then none
  else if cs.all (fun c => c.isDigit) then some (digitsNum cs)
  else none

/-- Unsigned part of a Python float literal. -/
def pyFloatCore (cs : List Char) : Option ℚ :=
  let ip := cs.takeWhile (fun c => c.isDigit)
  match cs.drop ip.length with
  | [] => if ip = [] then none else some ((digitsNum ip : ℚ))
  | '.' :: fp =>
    if fp.all (fun c => c.isDigit) ∧ ¬ (ip = [] ∧ fp = []) then
      some ((digitsNum ip : ℚ) + (digitsNum fp : ℚ) / (10 : ℚ) ^ fp.length)
    else none
  | _ => none

/-- Model of Python `int(token)`. -/
def pyInt (s : String) : Option Int :=
  match s.data with
  | '-' :: rest => (digitsVal rest).map (fun n => -(n : Int))
  | '+' :: rest => (digitsVal rest).map (fun n => (n : Int))
  | cs => (digitsVal cs).map (fun n => (n : Int))

/-- Model of Python `float(token)`. -/
def pyFloat (s : String) : Option ℚ :=
  match s.data with
  | '-' :: rest => (pyFloatCore rest).map (fun q => -q)
  | '+' :: rest => pyFloatCore rest
  | cs => pyFloatCore cs

/-! ## Metadata record (_create_md_dict, source lines 215-327) -/

/-- The 'array_dimensions' sub-dictionary. -/
structure ArrayDims where
  x_dimension : Int
  y_dimension : Int
  z_dimension : Int
deriving DecidableEq

/-- The 'bounding_box' sub-dictionary. -/
structure BBox where
  x_min : ℚ
  x_max : ℚ
  y_min : ℚ
  y_max : ℚ
  z_min : ℚ
  z_max : ℚ
deriving DecidableEq

/-- The 'resolution' sub-dictionary: either a single scalar spacing
(type 'isotropic') or the (z, y, x) spacing triple (type
'anisotropic'). -/
inductive Resolution where
  | isotropic (zyx_value : ℚ)
  | anisotropic (z y x : ℚ)
deriving DecidableEq

/-- The metadata dictionary.  Keys the source only sets conditionally
are `Option` fields; `none` means the key is absent from the Python
dict (reading it raises KeyError). -/
structure MdDict where
  software_src : String
  data_format : String
  data_format_version : String
  array_dimensions : Option ArrayDims := none
  data_type : Option String := none
  coord_type : Option String := none
  bounding_box : Option BBox := none
  resolution : Option Resolution := none
  units : Option String := none
  coordinates : Option String := none
  encoding : Option String := none
deriving DecidableEq

/-- Python `line[i]`: IndexError when out of range. -/
def pyIdx (line : List String) (i : Nat) : Except PyErr String :=
  match line.get? i with
  | some v => .ok v
  | none => .error .indexError

/-- Python `clean_header[i]`: IndexError when out of range. -/
def pyIdxL (ch : List (List String)) (i : Nat) : Except PyErr (List String) :=
  match ch.get? i with
  | some v => .ok v
  | none => .error .indexError

/-- Python `int(token)`: ValueError on parse failure. -/
def pyIntTok (s : String) : Except PyErr Int :=
  match pyInt s with
  | some v => .ok v
  | none => .error .valueError

/-- Python `float(token)`: ValueError on parse failure. -/
def pyFloatTok (s : String) : Except PyErr ℚ :=
  match pyFloat s with
  | some v => .ok v
  | none => .error .valueError

def q099 : ℚ := (99 : ℚ) / 100

def q101 : ℚ := (101 : ℚ) / 100

/-- The voxel-resolution loop (source lines 280-286): for each axis,
append `(bbox[2i+1] - bbox[2i]) / (dims[i] - 1)` when `dims[i] > 1`,
else append 0. -/
def resolution_list (bbox : List ℚ) (dims : List Int) : List ℚ :=
  (List.range dims.length).map (fun index =>
    if 1 < dims.getD index 0 then
      (bbox.getD (2 * index + 1) 0 - bbox.getD (2 * index) 0) /
        ((dims.getD index 0 : ℚ) - 1)
    else 0)

/-- The derived-resolution computation (source lines 268-299): build the
per-axis spacing list and classify.  The source divides by
`resolution_list[0]` before any comparison, so a zero axis-0 spacing
raises ZeroDivisionError (both the int 0 appended for a flat dimension
and a float 0.0 raise in Python). -/
def resolutionOf (bb : BBox) (d : ArrayDims) : Except PyErr Resolution :=
  let bbox := [bb.x_min, bb.x_max, bb.y_min, bb.y_max, bb.z_min, bb.z_max]
  let dims := [d.x_dimension, d.y_dimension, d.z_dimension]
  let rl := resolution_list bbox dims
  let r0 := rl.getD 0 0
  let r1 := rl.getD 1 0
  let r2 := rl.getD 2 0
  if r0 = 0 then .error .zeroDivisionError
  else if q099 < r1 / r0 ∧ q099 < r2 / r0 ∧ r1 / r0 < q101 ∧ r2 / r0 < q101
  then .ok (.isotropic r0)
  else .ok (.anisotropic r2 r1 r0)

/-- Per-axis voxel spacing, written exactly as the spec words it:
spacing = (max - min)/(dim - 1) when dim > 1, else 0.  Used to compare
the source computation against the spec's description. -/
def spec_axis_spacing (mn mx : ℚ) (dim : Int) : ℚ :=
  if 1 < dim then (mx - mn) / ((dim : ℚ) - 1) else 0

/-- The 'define' branch (source lines 237-245). -/
def pyDefine (md : MdDict) (line : List String) : Except PyErr MdDict := do
  let i := line.indexOf kwDefine
  let sx ← pyIdx line (i + 2)
  let x ← pyIntTok sx
  let sy ← pyIdx line (i + 3)
  let y ← pyIntTok sy
  let sz ← pyIdx line (i + 4)
  let z ← pyIntTok sz
  pure { md with array_dimensions := some ⟨x, y, z⟩ }

/-- The 'Content' branch (source lines 246-248). -/
def pyContent (md : MdDict) (line : List String) : Except PyErr MdDict := do
  let v ← pyIdx line (line.indexOf kwContent + 2)
  pure { md with data_type := some v }

/-- The 'CoordType' branch (source lines 249-251). -/
def pyCoordType (md : MdDict) (line : List String) : Except PyErr MdDict := do
  let v ← pyIdx line (line.indexOf kwCoordType + 1)
  pure { md with coord_type := some v }

/-- The 'BoundingBox' branch (source lines 252-299): parse six floats,
then immediately derive the resolution, reading the already-populated
dimensions (KeyError when the 'define' line has not been seen). -/
def pyBoundingBox (md : MdDict) (line : List String) : Except PyErr MdDict := do
  let i := line.indexOf kwBoundingBox
  let s1 ← pyIdx line (i + 1)
  let xmn ← pyFloatTok s1
  let s2 ← pyIdx line (i + 2)
  let xmx ← pyFloatTok s2
  let s3 ← pyIdx line (i + 3)
  let ymn ← pyFloatTok s3
  let s4 ← pyIdx line (i + 4)
  let ymx ← pyFloatTok s4
  let s5 ← pyIdx line (i + 5)
  let zmn ← pyFloatTok s5
  let s6 ← pyIdx line (i + 6)
  let zmx ← pyFloatTok s6
  let bb : BBox := ⟨xmn, xmx, ymn, ymx, zmn, zmx⟩
  let dims ← require md.array_dimensions .keyError
  let res ← resolutionOf bb dims
  pure { md with bounding_box := some bb, resolution := some res }

/-- The 'Units' branch (source lines 301-308): the only recovered error
in the extractor; the bare `except` catches the IndexError from the
offset-(+2) read and substitutes the default 'pixels'. -/
def pyUnitsBranch (md : MdDict) (line : List String) : Except PyErr MdDict :=
  match line.get? (line.indexOf kwUnits + 2) with
  | some u => .ok { md with units := some u }
  | none => .ok { md with units := some pxUnits }

/-- The 'Coordinates' branch (source lines 309-311). -/
def pyCoordinates (md : MdDict) (line : List String) : Except PyErr MdDict := do
  let v ← pyIdx line (line.indexOf kwCoordinates + 1)
  pure { md with coordinates := some v }

/-- The canonical raw-lattice token pattern (source line 313). -/
def usualLattice : List String :=
  [kwLattice, tokOpenBrace, dtByte, "Data", tokCloseBrace, tokAt1]

/-- The 'Lattice' branch (source lines 312-326).  The comparison loop
`for i in range(6)` indexes `header_line[i]` for every i regardless of
earlier mismatches, so a line with fewer than six tokens raises
IndexError; with six or more, encoding is 'raw' exactly when the first
six tokens equal the canonical pattern, otherwise four asserts check
tokens 1-4 and token 5 is taken verbatim. -/
def pyLattice (md : MdDict) (line : List String) : Except PyErr MdDict :=
  if line.length < 6 then .error .indexError
  else if line.take 6 = usualLattice then
    .ok { md with encoding := some encRaw }
  else if line.get? 1 = some tokOpenBrace ∧ line.get? 2 = some dtByte ∧
      line.get? 3 = some kwLabels ∧ line.get? 4 = some tokCloseBrace then
    match line.get? 5 with
    | some e => .ok { md with encoding := some e }
    | none => .error .indexError
  else .error .assertionError

/-- One iteration of the directive scan (source lines 236-326): the
elif chain tests keyword membership anywhere in the token list, except
the Lattice rule which requires token 0. -/
def processLine (md : MdDict) (line : List String) : Except PyErr MdDict :=
  if line.contains kwDefine then pyDefine md line
  else if line.contains kwContent then pyContent md line
  else if line.contains kwCoordType then pyCoordType md line
  else if line.contains kwBoundingBox then pyBoundingBox md line
  else if line.contains kwUnits then pyUnitsBranch md line
  else if line.contains kwCoordinates then pyCoordinates md line
  else if 1 ≤ line.length ∧ line.get? 0 = some kwLattice then
    pyLattice md line
  else .ok md

/-- Model of `_create_md_dict` (source lines 215-327): parse the
format-declaration line positionally (with the one-token shift when the
format token is '3D'), then scan every line of the cleaned header
through the directive chain. -/
def create_md_dict (ch : List (List String)) : Except PyErr MdDict := do
  let l0 ← pyIdxL ch 0
  let sw ← pyIdx l0 1
  let fm ← pyIdx l0 2
  let ver ← pyIdx l0 3
  let md0 : MdDict :=
    { software_src := sw, data_format := fm, data_format_version := ver }
  let md1 ←
    if md0.data_format = fmt3D then do
      let fm3 ← pyIdx l0 3
      let ver3 ← pyIdx l0 4
      pure { md0 with data_format := fm3, data_format_version := ver3 }
    else pure md0
  ch.foldlM processLine md1

/-! ## Payload decoder (_amira_data_to_numpy, source lines 82-184) -/

/-- The decoded 3D array: z-major list of y-major planes of x rows. -/
abbrev Arr3 := List (List (List Int))

/-- Value of a byte reinterpreted as numpy dtype 'b' (signed 8-bit). -/
def int8OfNat (n : Nat) : Int :=
  if n % 256 < 128 then ((n % 256 : Nat) : Int)
  else ((n % 256 : Nat) : Int) - 256

/-- C-style cast of an integer to a signed 8-bit value (numpy astype). -/
def wrap8 (i : Int) : Int :=
  int8OfNat (i.emod 256).toNat

/-- The dtype dictionary `am_dtype_dict` (source lines 134-138); lookup
of an unknown data type raises KeyError in the source. -/
def am_dtype_dict (t : String) : Option String :=
  if t = dtFloat then some dsF4
  else if t = dtShort then some dsH4
  else if t = dtUshort then some dsH4U
  else if t = dtByte then some dsB
  else none

/-- Model of `np.fromstring(data, '<' + ds)` (source lines 146-148).
Only the 1-byte signed case ('b') is representable in this integer
model; the multi-byte reinterpretations are the documented model
boundary `unmodeledDtype`. -/
def fromstringLE (ds : String) (stripped : List Char) :
    Except PyErr (List Int) :=
  if ds = dsB then .ok (stripped.map (fun c => int8OfNat c.toNat))
  else .error .unmodeledDtype

/-- Model of the regex match `@1\(HxByteRLE,?(\d+)\)` applied with
`re.match` (anchored at the start, trailing characters allowed):
returns the embedded byte count. -/
def parseHxByteRLE (enc : String) : Option Nat :=
  let cs := enc.data
  if cs.take rleDescrHead.length = rleDescrHead then
    let rest := cs.drop rleDescrHead.length
    let rest2 := match rest with
      | ',' :: r => r
      | r => r
    let digs := rest2.takeWhile (fun c => c.isDigit)
    match rest2.drop digs.length with
    | ')' :: _ => if digs = [] then none else some (digitsNum digs)
    | _ => none
  else none

/-- Python `str.split(sep)` with an explicit separator: empty pieces
are kept, and the empty string splits to one empty piece. -/
def pySplitCharAux (sep : Char) : List Char → List Char → List (List Char)
  | [], cur => [cur.reverse]
  | c :: rest, cur =>
    if c = sep then cur.reverse :: pySplitCharAux sep rest []
    else pySplitCharAux sep rest (c :: cur)

def pySplitChar (sep : Char) (s : List Char) : List (List Char) :=
  pySplitCharAux sep s []

/-- Model of `np.array(tokens).astype(ds)` for the ASCII branch: parse
each decimal token and cast.  Only integer dtypes are in the model. -/
def astypeList (ds : String) (toks : List String) : Except PyErr (List Int) :=
  if ds = dsB then do
    let vals ← toks.mapM pyIntTok
    pure (vals.map wrap8)
  else .error .unmodeledDtype

/-- The branch dispatch of `_amira_data_to_numpy` (source lines
129-177) producing the flat value list `flt_values`:

* 'BINARY-LITTLE-ENDIAN' (lines 143-148): assert raw encoding, strip
  newline bytes from both ends (Python `strip` trims both ends), then
  reinterpret via the dtype table.
* 'BINARY' (lines 149-168): raw encoding supports only 'byte'
  (NotImplementedError otherwise) and reads unsigned bytes; otherwise
  the encoding must match the HxByteRLE descriptor (assert), the
  stripped payload length must equal the embedded count (assert), the
  data type must be 'byte' (assert), and the RLE codec runs with target
  size z*y*x (np.empty raises ValueError on a negative size).
* 'ASCII' (lines 170-175): assert raw encoding, delete every newline,
  split on single spaces, drop the last two tokens, parse the rest.
* anything else: NotImplementedError (line 177). -/
def amiraFlatValues (am_data : List Char) (md : MdDict) (dims : ArrayDims) :
    Except PyErr (List Int) :=
  if md.data_format = fmtLE then do
    let enc ← require md.encoding .keyError
    if enc = encRaw then do
      let dt ← require md.data_type .keyError
      let ds ← require (am_dtype_dict dt) .keyError
      fromstringLE ds (pyStrip nlChar am_data)
    else .error .assertionError
  else if md.data_format = fmtBE then do
    let enc ← require md.encoding .keyError
    if enc = encRaw then do
      let dt ← require md.data_type .keyError
      if dt = dtByte then
        pure ((pyStrip nlChar am_data).map (fun c => (c.toNat : Int)))
      else .error .notImplementedError
    else do
      let num_bytes ← require (parseHxByteRLE enc) .assertionError
      let data_rle := pyStrip nlChar am_data
      if data_rle.length = num_bytes then do
        let dt ← require md.data_type .keyError
        if dt = dtByte then
          let sz := dims.z_dimension * dims.y_dimension * dims.x_dimension
          if sz < 0 then .error .valueError
          else do
            let dec ← (decode_rle (data_rle.map Char.toNat) sz.toNat).mapError
              pyOfRle
            pure (dec.map (fun b => (b : Int)))
        else .error .assertionError
      else .error .assertionError
  else if md.data_format = fmtAscii then do
    let enc ← require md.encoding .keyError
    if enc = encRaw then do
      let toks := pySplitChar spChar (pyTranslateDel [nlChar] am_data)
      let toks2 := (toks.take (toks.length - 2)).map (fun w => String.mk w)
      let dt ← require md.data_type .keyError
      let ds ← require (am_dtype_dict dt) .keyError
      astypeList ds toks2
    else .error .assertionError
  else .error .notImplementedError

/-- Model of `flt_values.resize(Zdim, Ydim, Xdim)` followed by reading
the array as nested lists: `ndarray.resize` never compares the element
count with the new shape; it truncates excess values and zero-fills
missing ones.  Entry (i, j, k) of the result is flat value number
i*(Y*X) + j*X + k, or 0 past the end of the flat list. -/
def npResize3 (flat : List Int) (Z Y X : Nat) : Arr3 :=
  (List.range Z).map (fun i =>
    (List.range Y).map (fun j =>
      (List.range X).map (fun k =>
        flat.getD (i * (Y * X) + j * X + k) 0)))

/-- Model of `_amira_data_to_numpy` (source lines 82-184): read the
dimensions from the metadata (KeyError when absent), compute the flat
value list, resize to (z, y, x) — numpy raises ValueError on a negative
dimension — and reverse the z axis when `flip_z` is set. -/
def amira_data_to_numpy (am_data : List Char) (md : MdDict)
    (flip_z : Bool := true) : Except PyErr Arr3 := do
  let dims ← require md.array_dimensions .keyError
  let flat ← amiraFlatValues am_data md dims
  if dims.z_dimension < 0 ∨ dims.y_dimension < 0 ∨ dims.x_dimension < 0 then
    .error .valueError
  else
    let arr := npResize3 flat dims.z_dimension.toNat dims.y_dimension.toNat
      dims.x_dimension.toNat
    pure (if flip_z then arr.reverse else arr)

/-- Model of `load_amiramesh` (source lines 330-357): reader →
tokenizer → metadata extractor → payload decoder with the default
`flip_z = true`. -/
def load_amiramesh (s : List Char) : Except PyErr (MdDict × Arr3) :=
  match read_amira s with
  | none => .error .nonTermination
  | some (header, data) => do
    let md ← create_md_dict (clean_amira_header header)
    let arr ← amira_data_to_numpy data md
    pure (md, arr)

/-- Shape predicate for the decoded array: Z planes of Y rows of X
values each. -/
def shape3Is (r : Arr3) (Z Y X : Nat) : Prop :=
  r.length = Z ∧ ∀ p ∈ r, p.length = Y ∧ ∀ q ∈ p, q.length = X

/-! ## Concrete inputs used by witnesses and counterexamples -/

/-- A metadata record for a little-endian raw byte lattice with the
given dimensions, as `_create_md_dict` would produce it. -/
def mdLEByteDims (d : ArrayDims) : MdDict :=
  { software_src := "AmiraMesh", data_format := fmtLE,
    data_format_version := "2.1", array_dimensions := some d,
    data_type := some dtByte, encoding := some encRaw }

def mdByte111 : MdDict := mdLEByteDims ⟨1, 1, 1⟩

def mdByte112 : MdDict := mdLEByteDims ⟨1, 1, 2⟩

/-- One payload byte 0xFF. -/
def payloadFF : List Char := [Char.ofNat 255]

/-- Payload: a leading newline byte then 0xFF. -/
def payloadNlFF : List Char := [nlChar, Char.ofNat 255]

/-- One payload byte 5 (one element, half of the declared 1*1*2). -/
def payload05 : List Char := [Char.ofNat 5]

/-- The minimal synthetic AmiraMesh file of the end-to-end claim:
little-endian byte lattice, dimensions 1 x 1 x 2, payload bytes 7, 9. -/
def fileC8 : List Char :=
  ("# AmiraMesh BINARY-LITTLE-ENDIAN 2.1\n" ++
   "define Lattice 1 1 2\n" ++
   "Content 1x1x2 byte\n" ++
   "Lattice \x7b byte Data \x7d @1\n" ++
   "# Data section follows\n" ++
   "\n").toList ++ [Char.ofNat 7, Char.ofNat 9]

/-- A stream whose single line is not the sentinel. -/
def streamNoSentinel : List Char := ("hello world\n").toList

/-- Cleaned header with an x dimension of 1 and a bounding box. -/
def hdrC9 : List (List String) :=
  [["#", "AmiraMesh", fmtLE, "2.1"],
   [kwDefine, kwLattice, "1", "5", "5"],
   [kwBoundingBox, "0", "1", "0", "1", "0", "1"]]

/-- Cleaned header with no 'Units' token anywhere. -/
def hdrNoUnits : List (List String) :=
  [["#", "AmiraMesh", fmtBE, "2.1"],
   [kwDefine, kwLattice, "2", "2", "2"]]

/-- Cleaned header containing a two-token line whose first token is
'Lattice' and whose second is 'Units'. -/
def hdrLatticeShort : List (List String) :=
  [["#", "AmiraMesh", fmtBE, "2.1"],
   [kwLattice, kwUnits]]

/-- Bounding box giving spacings 1, 99/100, 1 with dims 2, 101, 2. -/
def bbC5 : BBox := ⟨0, 1, 0, 99, 0, 1⟩

def dimsC5 : ArrayDims := ⟨2, 101, 2⟩

/-- Bounding box spanning 0..9 on each axis. -/
def bbIso : BBox := ⟨0, 9, 0, 9, 0, 9⟩

def dims10 : ArrayDims := ⟨10, 10, 10⟩

/-- The metadata record `_create_md_dict` produces for `hdrNoUnits`. -/
def mdNoUnits : MdDict :=
  { software_src := "AmiraMesh", data_format := fmtBE,
    data_format_version := "2.1", array_dimensions := some ⟨2, 2, 2⟩ }

/-- A bare metadata record (format-line fields only). -/
def mdPlain : MdDict :=
  { software_src := "A", data_format := "B", data_format_version := "C" }

/-! # Theorems -/

/-! ## Helper lemmas for the RLE codec -/

theorem rleGo_ok_len (d : List Nat) (n : Nat) :
    ∀ (k fp : Nat) (acc : List Nat), d.length - fp ≤ k → acc.length ≤ n →
      ∀ r f, rleGo d n fp acc = .ok (r, f) → r.length = n := by
  intro k
  induction k with
  | zero =>
    intro fp acc hk hacc r f h
    rw [rleGo] at h
    split at h
    next hlt =>
      split at h
      next hfp => exact absurd hfp (by omega)
      next => exact absurd h (by simp)
    next hge =>
      simp only [Except.ok.injEq, Prod.mk.injEq] at h
      obtain ⟨h1, h2⟩ := h
      subst h1
      omega
  | succ k ih =>
    intro fp acc hk hacc r f h
    rw [rleGo] at h
    split at h
    next hlt =>
      split at h
      next hfp =>
        dsimp only [] at h
        split at h
        next hx0 => exact absurd h (by simp)
        next hx0 =>
          split at h
          next hx127 =>
            split at h
            next hfit =>
              refine ih (fp + 1 + (d.get ⟨fp, hfp⟩ &&& 127)) (acc ++ _)
                (by omega) ?_ r f h
              rw [List.length_append]
              exact hfit
            next hfit => exact absurd h (by simp)
          next hx127 =>
            split at h
            next hfp1 =>
              split at h
              next hfit =>
                refine ih (fp + 2) (acc ++ _) (by omega) ?_ r f h
                rw [List.length_append]
                exact hfit
              next hfit => exact absurd h (by simp)
            next hfp1 => exact absurd h (by simp)
      next hfp => exact absurd h (by simp)
    next hge =>
      simp only [Except.ok.injEq, Prod.mk.injEq] at h
      obtain ⟨h1, h2⟩ := h
      subst h1
      omega

theorem rleGo_mono_aux (d : List Nat) (n : Nat) :
    ∀ (k fp : Nat) (acc : List Nat), d.length - fp ≤ k →
      ∀ r f, rleGo d n fp acc = .ok (r, f) → fp ≤ f := by
  intro k
  induction k with
  | zero =>
    intro fp acc hk r f h
    rw [rleGo] at h
    split at h
    next hlt =>
      split at h
      next hfp => exact absurd hfp (by omega)
      next => exact absurd h (by simp)
    next hge =>
      simp only [Except.ok.injEq, Prod.mk.injEq] at h
      omega
  | succ k ih =>
    intro fp acc hk r f h
    rw [rleGo] at h
    split at h
    next hlt =>
      split at h
      next hfp =>
        dsimp only [] at h
        split at h
        next hx0 => exact absurd h (by simp)
        next hx0 =>
          split at h
          next hx127 =>
            split at h
            next hfit =>
              have := ih (fp + 1 + (d.get ⟨fp, hfp⟩ &&& 127)) _ (by omega) r f h
              omega
            next hfit => exact absurd h (by simp)
          next hx127 =>
            split at h
            next hfp1 =>
              split at h
              next hfit =>
                have := ih (fp + 2) _ (by omega) r f h
                omega
              next hfit => exact absurd h (by simp)
            next hfp1 => exact absurd h (by simp)
      next hfp => exact absurd h (by simp)
    next hge =>
      simp only [Except.ok.injEq, Prod.mk.injEq] at h
      omega

theorem rleGo_mono (d : List Nat) (n fp : Nat) (acc : List Nat) (r : List Nat)
    (f : Nat) (h : rleGo d n fp acc = .ok (r, f)) : fp ≤ f :=
  rleGo_mono_aux d n (d.length - fp) fp acc le_rfl r f h

theorem seg_take_append {α : Type} (d e : List α) (a b f : Nat)
    (hf : f ≤ d.length) (hab : a + b ≤ f) :
    ((d.take f ++ e).drop a).take b = (d.drop a).take b := by
  have hlen : (d.take f).length = f := by rw [List.length_take]; omega
  rw [List.drop_append_eq_append_drop, hlen,
    Nat.sub_eq_zero_of_le (by omega : a ≤ f), List.drop_zero,
    List.take_append_of_le_length (by rw [List.length_drop, hlen]; omega),
    List.drop_take, List.take_take]
  congr 1
  omega

theorem get_take_append {α : Type} (d e : List α) (f i : Nat)
    (hf : f ≤ d.length) (hi : i < f) (hd : i < d.length)
    (h' : i < (d.take f ++ e).length) :
    (d.take f ++ e).get ⟨i, h'⟩ = d.get ⟨i, hd⟩ := by
  simp only [List.get_eq_getElem]
  rw [List.getElem_append_left (by rw [List.length_take]; omega)]
  exact List.getElem_take d

theorem rleGo_prefix_aux (d : List Nat) (n : Nat) :
    ∀ (k fp : Nat) (acc : List Nat), d.length - fp ≤ k →
      ∀ r f, rleGo d n fp acc = .ok (r, f) → f ≤ d.length →
        ∀ e, rleGo (d.take f ++ e) n fp acc = .ok (r, f) := by
  intro k
  induction k with
  | zero =>
    intro fp acc hk r f h hfle e
    rw [rleGo] at h
    split at h
    next hlt =>
      split at h
      next hfp => exact absurd hfp (by omega)
      next => exact absurd h (by simp)
    next hge =>
      simp only [Except.ok.injEq, Prod.mk.injEq] at h
      obtain ⟨h1, h2⟩ := h
      subst h1; subst h2
      rw [rleGo, if_neg hge]
  | succ k ih =>
    intro fp acc hk r f h hfle e
    rw [rleGo] at h
    split at h
    next hlt =>
      split at h
      next hfp =>
        dsimp only [] at h
        split at h
        next hx0 => exact absurd h (by simp)
        next hx0 =>
          split at h
          next hx127 =>
            split at h
            next hfit =>
              have hmono := rleGo_mono _ _ _ _ _ _ h
              have hlen' : fp < (d.take f ++ e).length := by
                rw [List.length_append, List.length_take]; omega
              rw [rleGo, if_pos hlt, dif_pos hlen']
              dsimp only []
              rw [get_take_append d e f fp hfle (by omega) hfp hlen']
              rw [if_neg hx0, if_pos hx127,
                seg_take_append d e (fp + 1) _ f hfle (by omega),
                if_pos hfit]
              exact ih _ _ (by omega) r f h hfle e
            next hfit => exact absurd h (by simp)
          next hx127 =>
            split at h
            next hfp1 =>
              split at h
              next hfit =>
                have hmono := rleGo_mono _ _ _ _ _ _ h
                have hlen' : fp < (d.take f ++ e).length := by
                  rw [List.length_append, List.length_take]; omega
                have hlen1 : fp + 1 < (d.take f ++ e).length := by
                  rw [List.length_append, List.length_take]; omega
                rw [rleGo, if_pos hlt, dif_pos hlen']
                dsimp only []
                rw [get_take_append d e f fp hfle (by omega) hfp hlen']
                rw [if_neg hx0, if_neg hx127, dif_pos hlen1,
                  get_take_append d e f (fp + 1) hfle (by omega) hfp1 hlen1,
                  if_pos hfit]
                exact ih _ _ (by omega) r f h hfle e
              next hfit => exact absurd h (by simp)
            next hfp1 => exact absurd h (by simp)
      next hfp => exact absurd h (by simp)
    next hge =>
      simp only [Except.ok.injEq, Prod.mk.injEq] at h
      obtain ⟨h1, h2⟩ := h
      subst h1; subst h2
      rw [rleGo, if_neg hge]

/-- Success of `decode_rle` yields exactly `uncompressed_size` bytes. -/
theorem decode_rle_len (d : List Nat) (n : Nat) (r : List Nat)
    (h : decode_rle d n = .ok r) : r.length = n := by
  unfold decode_rle decode_rle_fp at h
  cases hgo : rleGo d n 0 [] with
  | error err => rw [hgo] at h; exact absurd h (by simp [Except.map])
  | ok p =>
    rw [hgo] at h
    simp only [Except.map, Except.ok.injEq] at h
    subst h
    exact rleGo_ok_len d n (d.length - 0) 0 [] le_rfl (by simp) p.1 p.2
      (by rw [hgo])

/-! ## Claim C6 -/

/-- C6: `decode_rle` consumes (control byte, payload) packets left to
right; on every input on which it succeeds it produces exactly
`uncompressed_size` output bytes; a zero control byte fails with the
corrupt-stream ValueError; a control byte above 127 copies the next
(x &&& 0x7f) input bytes verbatim (0x82 then two literal bytes copies
them); a control byte in 1..127 repeats the single following byte that
many times (0x03 then 0xFF yields three 0xFF bytes). -/
theorem c6_decode_rle_packet_semantics :
    (∀ (d : List Nat) (n : Nat) (r : List Nat),
        decode_rle d n = .ok r → r.length = n) ∧
    (∀ (d : List Nat) (n : Nat), 0 < n → d.get? 0 = some 0 →
        decode_rle d n = .error .corruptStream) ∧
    (decode_rle [3, 255] 3 = .ok [255, 255, 255]) ∧
    (∀ a b : Nat, decode_rle [130, a, b] 2 = .ok [a, b]) := by
  refine ⟨fun d n r h => decode_rle_len d n r h, ?_, ?_, ?_⟩
  · intro d n hn h0
    match d with
    | [] => simp at h0
    | x :: rest =>
      simp only [List.get?_cons_zero, Option.some.injEq] at h0
      subst h0
      rw [decode_rle, decode_rle_fp, rleGo]
      simp [hn, Except.map]
  · simp [decode_rle, decode_rle_fp, rleGo, Except.map]
  · intro a b
    have hand : (130 : Nat) &&& 127 = 2 := by decide
    simp [decode_rle, decode_rle_fp, rleGo, Except.map, hand]

/-- Witness for C6 at concrete inputs. -/
theorem c6_decode_rle_packet_semantics_witness :
    (([7, 7] : List Nat).length = 2) ∧
    (decode_rle [0, 9] 2 = .error .corruptStream) ∧
    (decode_rle [130, 5, 6] 2 = .ok [5, 6]) :=
  ⟨c6_decode_rle_packet_semantics.1 [2, 7] 2 [7, 7]
      (by simp [decode_rle, decode_rle_fp, rleGo, Except.map]),
   c6_decode_rle_packet_semantics.2.1 [0, 9] 2 (by decide) (by decide),
   c6_decode_rle_packet_semantics.2.2.2 5 6⟩

/-! ## Claim C7 -/

/-- C7: `decode_rle` never returns a short (or padded) result — every
success has exactly `uncompressed_size` bytes, and an input exhausted
before that many bytes are produced fails with the truncated-stream
IndexError (concrete instance: one repeat packet yielding 5 of the
requested 10 bytes, then end of input); once the output is complete the
rest of the input is ignored: replacing everything after the consumed
prefix by arbitrary trailing bytes leaves the successful result
unchanged. -/
theorem c7_decode_rle_truncation_and_trailing :
    (∀ (d : List Nat) (n : Nat) (r : List Nat),
        decode_rle d n = .ok r → ¬ r.length < n) ∧
    (decode_rle [5, 1] 10 = .error .truncatedStream) ∧
    (∀ (d : List Nat) (n : Nat) (r : List Nat) (f : Nat) (e : List Nat),
        decode_rle_fp d n = .ok (r, f) → f ≤ d.length →
        decode_rle_fp (d.take f ++ e) n = .ok (r, f)) := by
  refine ⟨?_, ?_, ?_⟩
  · intro d n r h
    rw [decode_rle_len d n r h]
    exact lt_irrefl n
  · simp [decode_rle, decode_rle_fp, rleGo, Except.map]
  · intro d n r f e h hf
    exact rleGo_prefix_aux d n (d.length - 0) 0 [] le_rfl r f h hf e

/-- Witness for C7 at concrete inputs. -/
theorem c7_decode_rle_truncation_and_trailing_witness :
    (¬ ([255, 255, 255] : List Nat).length < 3) ∧
    (decode_rle [5, 1] 10 = .error .truncatedStream) ∧
    (decode_rle_fp ([3, 255].take 2 ++ [9, 9]) 3 = .ok ([255, 255, 255], 2)) :=
  ⟨c7_decode_rle_truncation_and_trailing.1 [3, 255] 3 [255, 255, 255]
      (by simp [decode_rle, decode_rle_fp, rleGo, Except.map]),
   c7_decode_rle_truncation_and_trailing.2.1,
   c7_decode_rle_truncation_and_trailing.2.2 [3, 255] 3 [255, 255, 255] 2 [9, 9]
      (by simp [decode_rle_fp, rleGo, Except.map]) (by decide)⟩

/-! ## Claim C1 -/

/-- Helper: when no line equals the sentinel, the readline loop never
exits. -/
theorem readAmiraLines_no_sentinel :
    ∀ (L : List (List Char)), (∀ l ∈ L, ¬ String.mk l = amSentinel) →
      readAmiraLines L = none := by
  intro L
  induction L with
  | nil => intro _; rfl
  | cons l rest ih =>
    intro h
    simp only [readAmiraLines]
    rw [if_neg (h l (List.mem_cons_self l rest))]
    rw [ih (fun x hx => h x (List.mem_cons_of_mem l hx))]

/-- C1: on a stream none of whose readline-lines equals the sentinel
line, `_read_amira` never returns: at end of file `readline()` keeps
producing the empty string, which is never equal to the sentinel, and
the `while True` loop has no other exit.  No exception — in particular
no MalformedFileError — is raised, and no header/payload split is
produced (`none` models the non-terminating call). -/
theorem c1_read_amira_missing_sentinel_hangs (s : List Char)
    (h : amSentinel ∉ pyLines s) : read_amira s = none := by
  unfold read_amira
  apply readAmiraLines_no_sentinel
  intro l hl heq
  exact h (heq ▸ List.mem_map_of_mem (fun x => String.mk x) hl)

/-- Witness for C1 at a concrete sentinel-free stream. -/
theorem c1_read_amira_missing_sentinel_hangs_witness :
    amSentinel ∉ pyLines streamNoSentinel ∧
      read_amira streamNoSentinel = none :=
  ⟨by decide, c1_read_amira_missing_sentinel_hangs streamNoSentinel (by decide)⟩

/-! ## Helper lemmas for the metadata extractor -/

theorem pyDefine_units (md : MdDict) (line : List String) (md' : MdDict)
    (h : pyDefine md line = .ok md') : md'.units = md.units := by
  simp only [pyDefine, bind, Except.bind, pure, Except.pure] at h
  repeat' split at h
  all_goals first
    | (simp only [Except.ok.injEq] at h; subst h; rfl)
    | exact Except.noConfusion h

theorem pyContent_units (md : MdDict) (line : List String) (md' : MdDict)
    (h : pyContent md line = .ok md') : md'.units = md.units := by
  simp only [pyContent, bind, Except.bind, pure, Except.pure] at h
  repeat' split at h
  all_goals first
    | (simp only [Except.ok.injEq] at h; subst h; rfl)
    | exact Except.noConfusion h

theorem pyCoordType_units (md : MdDict) (line : List String) (md' : MdDict)
    (h : pyCoordType md line = .ok md') : md'.units = md.units := by
  simp only [pyCoordType, bind, Except.bind, pure, Except.pure] at h
  repeat' split at h
  all_goals first
    | (simp only [Except.ok.injEq] at h; subst h; rfl)
    | exact Except.noConfusion h

theorem pyBoundingBox_units (md : MdDict) (line : List String) (md' : MdDict)
    (h : pyBoundingBox md line = .ok md') : md'.units = md.units := by
  simp only [pyBoundingBox, bind, Except.bind, pure, Except.pure] at h
  repeat' split at h
  all_goals first
    | (simp only [Except.ok.injEq] at h; subst h; rfl)
    | exact Except.noConfusion h

theorem pyCoordinates_units (md : MdDict) (line : List String) (md' : MdDict)
    (h : pyCoordinates md line = .ok md') : md'.units = md.units := by
  simp only [pyCoordinates, bind, Except.bind, pure, Except.pure] at h
  repeat' split at h
  all_goals first
    | (simp only [Except.ok.injEq] at h; subst h; rfl)
    | exact Except.noConfusion h

theorem pyLattice_units (md : MdDict) (line : List String) (md' : MdDict)
    (h : pyLattice md line = .ok md') : md'.units = md.units := by
  simp only [pyLattice] at h
  repeat' split at h
  all_goals first
    | (simp only [Except.ok.injEq] at h; subst h; rfl)
    | exact Except.noConfusion h

/-- A line without a 'Units' token leaves the units key untouched. -/
theorem processLine_preserves_units (md : MdDict) (line : List String)
    (md' : MdDict) (hno : line.contains kwUnits = false)
    (h : processLine md line = .ok md') : md'.units = md.units := by
  simp only [processLine] at h
  split at h
  next => exact pyDefine_units _ _ _ h
  next =>
    split at h
    next => exact pyContent_units _ _ _ h
    next =>
      split at h
      next => exact pyCoordType_units _ _ _ h
      next =>
        split at h
        next => exact pyBoundingBox_units _ _ _ h
        next =>
          split at h
          next hu => rw [hno] at hu; exact absurd hu (by simp)
          next =>
            split at h
            next => exact pyCoordinates_units _ _ _ h
            next =>
              split at h
              next => exact pyLattice_units _ _ _ h
              next =>
                simp only [Except.ok.injEq] at h
                subst h; rfl

theorem foldlM_preserves_units :
    ∀ (ch : List (List String)) (md0 md : MdDict),
      (∀ line ∈ ch, line.contains kwUnits = false) →
      ch.foldlM processLine md0 = .ok md → md.units = md0.units := by
  intro ch
  induction ch with
  | nil =>
    intro md0 md _ hf
    simp only [List.foldlM, pure, Except.pure, Except.ok.injEq] at hf
    subst hf; rfl
  | cons l rest ih =>
    intro md0 md h hf
    rw [List.foldlM_cons] at hf
    cases hp : processLine md0 l with
    | error e =>
      rw [hp] at hf
      simp only [bind, Except.bind] at hf
      exact Except.noConfusion hf
    | ok md1 =>
      rw [hp] at hf
      simp only [bind, Except.bind] at hf
      have h1 := processLine_preserves_units md0 l md1
        (h l (List.mem_cons_self l rest)) hp
      have h2 := ih md1 md (fun x hx => h x (List.mem_cons_of_mem l hx)) hf
      rw [h2, h1]

/-- A successful extraction over a header with no 'Units' token leaves
the units key absent. -/
theorem create_md_dict_units_none (ch : List (List String)) (md : MdDict)
    (h : create_md_dict ch = .ok md)
    (hch : ∀ line ∈ ch, line.contains kwUnits = false) : md.units = none := by
  simp only [create_md_dict, bind, Except.bind, pure, Except.pure] at h
  repeat' split at h
  all_goals first
    | exact Except.noConfusion h
    | (rw [foldlM_preserves_units ch _ md hch h])

/-- The source's resolution computation written through the spec's
per-axis spacing formula. -/
theorem resolutionOf_eq (bb : BBox) (d : ArrayDims) :
    resolutionOf bb d =
      (if spec_axis_spacing bb.x_min bb.x_max d.x_dimension = 0 then
        .error .zeroDivisionError
      else if q099 < spec_axis_spacing bb.y_min bb.y_max d.y_dimension /
            spec_axis_spacing bb.x_min bb.x_max d.x_dimension ∧
          q099 < spec_axis_spacing bb.z_min bb.z_max d.z_dimension /
            spec_axis_spacing bb.x_min bb.x_max d.x_dimension ∧
          spec_axis_spacing bb.y_min bb.y_max d.y_dimension /
            spec_axis_spacing bb.x_min bb.x_max d.x_dimension < q101 ∧
          spec_axis_spacing bb.z_min bb.z_max d.z_dimension /
            spec_axis_spacing bb.x_min bb.x_max d.x_dimension < q101
      then .ok (.isotropic (spec_axis_spacing bb.x_min bb.x_max d.x_dimension))
      else .ok (.anisotropic
        (spec_axis_spacing bb.z_min bb.z_max d.z_dimension)
        (spec_axis_spacing bb.y_min bb.y_max d.y_dimension)
        (spec_axis_spacing bb.x_min bb.x_max d.x_dimension))) := rfl

/-! ## Claim C3 -/

/-- C3 (amended): when `_create_md_dict` succeeds on a tokenized header
containing no 'Units' token, the returned record has NO units value at
all (the key is absent — it is not defaulted to 'pixels'); and on a
line that carries a 'Units' token (and none of the directive tokens the
elif chain tests first) whose offset-(+2) token does not exist, the
scan recovers silently and sets units to 'pixels'. -/
theorem c3_units_behaviour :
    (∀ (ch : List (List String)) (md : MdDict),
        create_md_dict ch = .ok md →
        (∀ line ∈ ch, line.contains kwUnits = false) →
        md.units = none) ∧
    (∀ (md : MdDict) (line : List String),
        line.contains kwUnits = true →
        line.contains kwDefine = false →
        line.contains kwContent = false →
        line.contains kwCoordType = false →
        line.contains kwBoundingBox = false →
        line.length ≤ line.indexOf kwUnits + 2 →
        processLine md line = .ok { md with units := some pxUnits }) := by
  constructor
  · exact create_md_dict_units_none
  · intro md line hU hd hc hct hb hlen
    simp only [processLine, hd, hc, hct, hb, hU, Bool.false_eq_true,
      if_false, if_true, pyUnitsBranch]
    rw [List.get?_eq_none.mpr hlen]

/-- Counterexample to C3 as stated: a header with no 'Units' line whose
extraction succeeds with the units key absent (`none`), not equal to
the claimed default 'pixels'. -/
theorem c3_cex_absent_units_not_pixels :
    (create_md_dict hdrNoUnits).map (fun m => m.units) = .ok none ∧
    (create_md_dict hdrNoUnits).map (fun m => m.units) ≠ .ok (some pxUnits) := by
  exact ⟨by decide, by decide⟩

/-- Witness for C3 at concrete inputs. -/
theorem c3_units_behaviour_witness :
    mdNoUnits.units = none ∧
      processLine mdPlain [kwUnits] = .ok { mdPlain with units := some pxUnits } :=
  ⟨c3_units_behaviour.1 hdrNoUnits mdNoUnits (by decide) (by decide),
   c3_units_behaviour.2 mdPlain [kwUnits] (by decide) (by decide) (by decide)
     (by decide) (by decide) (by decide)⟩

/-! ## Claim C10 -/

/-- C10 (amended): a tokenized header line whose first token is exactly
'Lattice', which has fewer than six tokens, and which contains none of
the directive tokens the elif chain tests first (define, Content,
CoordType, BoundingBox, Units, Coordinates) makes the extractor raise
IndexError: only length >= 1 is checked before the six-token pattern
comparison indexes the line, so the line is neither classified raw nor
rejected with the AssertionError of the unsupported-lattice checks. -/
theorem c10_lattice_short_line_index_error (md : MdDict) (line : List String)
    (h0 : line.get? 0 = some kwLattice) (hlen : line.length < 6)
    (hd : line.contains kwDefine = false)
    (hc : line.contains kwContent = false)
    (hct : line.contains kwCoordType = false)
    (hb : line.contains kwBoundingBox = false)
    (hu : line.contains kwUnits = false)
    (hco : line.contains kwCoordinates = false) :
    processLine md line = .error .indexError := by
  have hlen1 : 1 ≤ line.length := by
    cases line with
    | nil => simp at h0
    | cons a l => simp
  simp only [processLine, hd, hc, hct, hb, hu, hco, Bool.false_eq_true,
    if_false]
  rw [if_pos ⟨hlen1, h0⟩]
  simp only [pyLattice, hlen, if_true]

/-- Counterexample to C10 as stated: the two-token line
['Lattice', 'Units'] starts with 'Lattice' and has fewer than six
tokens, yet extraction of a header containing it succeeds (the elif
chain claims the line for the 'Units' branch, which recovers and
defaults units to 'pixels'). -/
theorem c10_cex_short_lattice_line_no_error :
    (create_md_dict hdrLatticeShort).map (fun m => m.units) =
      .ok (some pxUnits) ∧
    hdrLatticeShort.get? 1 = some [kwLattice, kwUnits] := by
  exact ⟨by decide, by decide⟩

/-- Witness for C10 at a concrete two-token lattice line. -/
theorem c10_lattice_short_line_index_error_witness :
    processLine mdPlain [kwLattice, tokOpenBrace] = .error .indexError :=
  c10_lattice_short_line_index_error mdPlain [kwLattice, tokOpenBrace]
    (by decide) (by decide) (by decide) (by decide) (by decide) (by decide)
    (by decide) (by decide)

/-! ## Claim C9 -/

/-- C9: an x dimension of 1 makes the axis-0 spacing 0, so the isotropy
check divides by zero and metadata extraction fails with
ZeroDivisionError instead of producing a resolution classification
(shown both for the resolution computation with arbitrary bounding box
and y/z dimensions, and for a complete concrete header); moreover the
ratios are only well defined when the axis-0 spacing is nonzero, which
requires x dimension > 1. -/
theorem c9_resolution_zero_spacing :
    (∀ (bb : BBox) (y z : Int),
        resolutionOf bb ⟨1, y, z⟩ = .error .zeroDivisionError) ∧
    (∀ (bb : BBox) (d : ArrayDims),
        resolutionOf bb d ≠ .error .zeroDivisionError →
        spec_axis_spacing bb.x_min bb.x_max d.x_dimension ≠ 0 ∧
          1 < d.x_dimension) ∧
    (create_md_dict hdrC9 = .error .zeroDivisionError) := by
  refine ⟨?_, ?_, by decide⟩
  · intro bb y z
    rw [resolutionOf_eq]
    simp [spec_axis_spacing]
  · intro bb d h
    rw [resolutionOf_eq] at h
    by_cases h0 : spec_axis_spacing bb.x_min bb.x_max d.x_dimension = 0
    · rw [if_pos h0] at h
      exact absurd rfl h
    · refine ⟨h0, ?_⟩
      by_contra hdim
      exact h0 (by simp [spec_axis_spacing, hdim])

/-- Witness for C9 at a concrete well-defined resolution input. -/
theorem c9_resolution_zero_spacing_witness :
    spec_axis_spacing bbIso.x_min bbIso.x_max dims10.x_dimension ≠ 0 ∧
      1 < dims10.x_dimension :=
  c9_resolution_zero_spacing.2.1 bbIso dims10 (by
    have h : resolutionOf bbIso dims10 = .ok (.isotropic 1) := by
      norm_num [resolutionOf_eq, spec_axis_spacing, bbIso, dims10, q099, q101]
    simp [h])

/-! ## Claim C5 -/

/-- C5 (amended): whenever the axis-0 spacing is nonzero, the per-axis
spacing is (max-min)/(dim-1) for dim > 1 and 0 otherwise, and the
resolution is classified isotropic — storing the single axis-0 spacing
— exactly when both ratios spacing1/spacing0 and spacing2/spacing0 lie
STRICTLY inside the open band (0.99, 1.01); ratios exactly 0.99 or
exactly 1.01 fall to the anisotropic branch, which stores the triple
(axis2, axis1, axis0). -/
theorem c5_resolution_strict_band (bb : BBox) (d : ArrayDims)
    (h0 : spec_axis_spacing bb.x_min bb.x_max d.x_dimension ≠ 0) :
    resolutionOf bb d =
      if q099 < spec_axis_spacing bb.y_min bb.y_max d.y_dimension /
            spec_axis_spacing bb.x_min bb.x_max d.x_dimension ∧
          spec_axis_spacing bb.y_min bb.y_max d.y_dimension /
            spec_axis_spacing bb.x_min bb.x_max d.x_dimension < q101 ∧
          q099 < spec_axis_spacing bb.z_min bb.z_max d.z_dimension /
            spec_axis_spacing bb.x_min bb.x_max d.x_dimension ∧
          spec_axis_spacing bb.z_min bb.z_max d.z_dimension /
            spec_axis_spacing bb.x_min bb.x_max d.x_dimension < q101
      then .ok (.isotropic (spec_axis_spacing bb.x_min bb.x_max d.x_dimension))
      else .ok (.anisotropic
        (spec_axis_spacing bb.z_min bb.z_max d.z_dimension)
        (spec_axis_spacing bb.y_min bb.y_max d.y_dimension)
        (spec_axis_spacing bb.x_min bb.x_max d.x_dimension)) := by
  rw [resolutionOf_eq, if_neg h0]
  exact if_congr (by tauto) rfl rfl

/-- Counterexample to C5 as stated: with dims (2, 101, 2) and bounding
box (0,1) x (0,99) x (0,1) the spacings are 1, 99/100, 1; both ratios
(99/100 and 1) lie in the claimed INCLUSIVE band [0.99, 1.01], yet the
source classifies the resolution anisotropic, because its comparisons
are strict. -/
theorem c5_cex_boundary_ratio_classified_anisotropic :
    resolutionOf bbC5 dimsC5 = .ok (.anisotropic 1 (99 / 100) 1) ∧
    spec_axis_spacing bbC5.y_min bbC5.y_max dimsC5.y_dimension /
        spec_axis_spacing bbC5.x_min bbC5.x_max dimsC5.x_dimension = q099 ∧
    spec_axis_spacing bbC5.z_min bbC5.z_max dimsC5.z_dimension /
        spec_axis_spacing bbC5.x_min bbC5.x_max dimsC5.x_dimension = 1 ∧
    q099 ≤ q099 ∧ q099 ≤ q101 ∧ q099 ≤ 1 ∧ (1 : ℚ) ≤ q101 := by
  refine ⟨?_, ?_⟩
  · norm_num [resolutionOf, resolution_list, bbC5, dimsC5, q099, q101]
  · norm_num [spec_axis_spacing, bbC5, dimsC5, q099, q101]

/-- Witness for C5: dims (10,10,10) with an equal bounding box span on
every axis is classified isotropic with spacing 1. -/
theorem c5_resolution_strict_band_witness :
    resolutionOf bbIso dims10 = .ok (.isotropic 1) := by
  have h := c5_resolution_strict_band bbIso dims10
    (by norm_num [spec_axis_spacing, bbIso, dims10])
  rw [h]
  norm_num [spec_axis_spacing, bbIso, dims10, q099, q101]

/-! ## Helper lemmas for the payload decoder -/

theorem shape_npResize3 (flat : List Int) (Z Y X : Nat) :
    shape3Is (npResize3 flat Z Y X) Z Y X := by
  refine ⟨by simp [npResize3], ?_⟩
  intro p hp
  simp only [npResize3, List.mem_map] at hp
  obtain ⟨i, hi, rfl⟩ := hp
  refine ⟨by simp, ?_⟩
  intro q hq
  simp only [List.mem_map] at hq
  obtain ⟨j, hj, rfl⟩ := hq
  simp

theorem shape3Is_reverse (r : Arr3) (Z Y X : Nat) (h : shape3Is r Z Y X) :
    shape3Is r.reverse Z Y X :=
  ⟨by simp [h.1], fun p hp => h.2 p (List.mem_reverse.mp hp)⟩

/-! ## Claim C2 -/

/-- C2 (amended): the payload decoder performs no element-count check —
`ndarray.resize` truncates a too-long flat sequence and zero-pads a too
-short one — so every successful decode, whatever the element count,
returns an array of shape (z, y, x). -/
theorem c2_decoder_always_shaped :
    ∀ (am_data : List Char) (md : MdDict) (fz : Bool) (r : Arr3),
      amira_data_to_numpy am_data md fz = .ok r →
      ∃ dims, md.array_dimensions = some dims ∧
        shape3Is r dims.z_dimension.toNat dims.y_dimension.toNat
          dims.x_dimension.toNat := by
  intro s md fz r h
  unfold amira_data_to_numpy at h
  cases hd : md.array_dimensions with
  | none =>
    rw [hd] at h
    simp only [require, bind, Except.bind] at h
    exact Except.noConfusion h
  | some dims =>
    refine ⟨dims, rfl, ?_⟩
    rw [hd] at h
    simp only [require, bind, Except.bind] at h
    split at h
    next => exact Except.noConfusion h
    next flat heq =>
      split at h
      next => exact Except.noConfusion h
      next =>
        simp only [pure, Except.pure, Except.ok.injEq] at h
        subst h
        cases fz with
        | true =>
          simpa using shape3Is_reverse _ _ _ _ (shape_npResize3 flat _ _ _)
        | false => simpa using shape_npResize3 flat _ _ _

/-- Counterexample to C2 as stated: a one-byte payload against declared
dimensions 1 x 1 x 2 (element count 1, not 2) decodes successfully to
the zero-padded, z-flipped array [[[0]], [[5]]] instead of failing with
a shape error. -/
theorem c2_cex_count_mismatch_no_error :
    amira_data_to_numpy payload05 mdByte112 true = .ok [[[0]], [[5]]] ∧
    payload05.length = 1 ∧ (1 : Nat) * 1 * 2 = 2 ∧ (1 : Nat) ≠ 2 := by
  exact ⟨by decide, by decide, by decide, by decide⟩

/-- Witness for C2 at a concrete successful decode. -/
theorem c2_decoder_always_shaped_witness :
    ∃ dims, mdByte112.array_dimensions = some dims ∧
      shape3Is [[[0]], [[5]]] dims.z_dimension.toNat dims.y_dimension.toNat
        dims.x_dimension.toNat :=
  c2_decoder_always_shaped payload05 mdByte112 true [[[0]], [[5]]] (by decide)

/-! ## Claim C4 -/

/-- C4 (amended): for BINARY-LITTLE-ENDIAN raw payloads the decoder
strips newline bytes from BOTH ends (Python strip, not only trailing)
and interprets the rest via the dtype table float -> 'f4',
short -> 'h4', ushort -> 'H4', byte -> 'b'; the 'b' dtype is a 1-byte
SIGNED integer, so payload byte 0xFF decodes to -1, not 255 (bytes
below 128 keep their value). -/
theorem c4_le_byte_signed :
    (am_dtype_dict dtFloat = some dsF4 ∧ am_dtype_dict dtShort = some dsH4 ∧
      am_dtype_dict dtUshort = some dsH4U ∧ am_dtype_dict dtByte = some dsB) ∧
    (∀ (s : List Char) (md : MdDict) (dims : ArrayDims),
        md.data_format = fmtLE → md.encoding = some encRaw →
        md.data_type = some dtByte →
        amiraFlatValues s md dims =
          .ok ((pyStrip nlChar s).map (fun c => int8OfNat c.toNat))) ∧
    (int8OfNat 255 = -1 ∧ int8OfNat 127 = 127) := by
  refine ⟨by decide, ?_, by decide⟩
  intro s md dims h1 h2 h3
  simp [amiraFlatValues, h1, h2, h3, require, am_dtype_dict, fromstringLE,
    bind, Except.bind, dtByte, dtFloat, dtShort, dtUshort, dsB, encRaw]

/-- Counterexample to C4 as stated: the payload byte 0xFF with
data_type 'byte' decodes to -1 (signed 8-bit), not to the claimed
unsigned value 255. -/
theorem c4_cex_byte_ff_minus_one :
    amira_data_to_numpy payloadFF mdByte111 true = .ok [[[-1]]] ∧
    ((-1 : Int) ≠ 255) := by
  exact ⟨by decide, by decide⟩

/-- Witness for C4: payload (newline, 0xFF) loses its LEADING newline
to the strip and yields the single signed value -1. -/
theorem c4_le_byte_signed_witness :
    amiraFlatValues payloadNlFF mdByte111 ⟨1, 1, 1⟩ = .ok [-1] := by
  have h := c4_le_byte_signed.2.1 payloadNlFF mdByte111 ⟨1, 1, 1⟩
    (by decide) (by decide) (by decide)
  rw [h]
  decide

/-! ## Claim C8 -/

/-- C8: the minimal synthetic AmiraMesh file — header declaring
BINARY-LITTLE-ENDIAN, dimensions x=1 y=1 z=2, data type byte, raw
encoding, payload bytes [7, 9] — loads to metadata with
array_dimensions x:1, y:1, z:2 and the z-flipped array
[[[9]], [[7]]]. -/
theorem c8_end_to_end :
    load_amiramesh fileC8 = .ok (mdLEByteDims ⟨1, 1, 2⟩, [[[9]], [[7]]]) ∧
    (mdLEByteDims ⟨1, 1, 2⟩).array_dimensions = some ⟨1, 1, 2⟩ := by
  exact ⟨by decide, by decide⟩
